import Mathlib

/-!
Verification of the response deserializer of the skytable rust client
(src/src/deserializer.rs) against its natural-language specification.

The byte buffer is modelled as a `List Nat` (each entry one byte).  The
Rust `usize` arithmetic on accumulated decimal sizes is modelled as `Nat`
arithmetic reduced `% 2 ^ 64` at every accumulation step, matching the
release-mode wrapping semantics of a 64-bit target.  Cursor positions are
plain `Nat`: in every reachable state they are bounded by the buffer
length plus a small constant, far below `2 ^ 64`.

Rust process aborts (the `unimplemented!` arm at deserializer.rs:169 and
the out-of-bounds indexings `next_line[0]` at deserializer.rs:104 and
deserializer.rs:138) are made observable as the distinguished outcome
`ParseResult.panicked`: a panic never returns a `ClientResult` to the
caller, so it is kept apart from every ordinary outcome.

Text values (`String` in Rust) are modelled as lists of Unicode scalar
values (`List Nat`); `String::from_utf8_lossy` is implemented below as
the standard UTF-8 decoder with replacement of maximal invalid subparts
by U+FFFD, which is the documented behaviour of the Rust standard
library function.
-/

/-- The modulus of Rust `usize` arithmetic on a 64-bit target. -/
def USIZE : Nat := 2 ^ 64

/-- One step of the decimal-digit accumulation loops of deserializer.rs
(lines 107-117, 145-157, 173-186, 258-270): `size = size * 10 + digit`
in wrapping `usize` arithmetic. -/
def digitStep (acc d : Nat) : Nat := (acc * 10 + (d - 48)) % USIZE

/-- Model of Rust `str::parse::<u64>` applied to a string given as its
list of Unicode scalar values: an optional leading plus sign, then one
or more ASCII decimal digits, value below `2 ^ 64`; anything else is a
parse failure (`none`). -/
def parseU64 (s : List Nat) : Option Nat :=
  let ds := match s with
    | 43 :: rest => rest
    | _ => s
  if ds ≠ [] ∧ ds.all (fun b => 48 ≤ b && b ≤ 57) then
    let v := ds.foldl (fun a b => a * 10 + (b - 48)) 0
    if v < USIZE then some v else none
  else none

/-- Modelled from the spec: the repository file defining `RespCode`
(`respcode.rs`, referenced from lib.rs and deserializer.rs) is not under
src/.  Spec sections 3 and 4.4 give the closed enumeration over small
non-negative wire integers with 0 = Okay and 1 = NotFound as the known
codes, an `unrecognized code N` variant for every other valid integer,
and the doc comment on `DataType::RespCode` in deserializer.rs (the code
`is kept as String for other error types`) shows that a payload that is
not a valid integer is carried as a string in a catch-all variant rather
than rejected: the call site `RespCode::from_str(&value)` at
deserializer.rs:201 returns a plain `RespCode`, so the conversion is
total. -/
inductive RespCode
  | Okay
  | NotFound
  | Unrecognized (code : Nat)
  | OtherError (text : List Nat)
deriving DecidableEq

/-- Modelled from the spec: the total conversion from a status-code
payload string (as Unicode scalar values) to a `RespCode`, per spec
section 4.4 and the `DataType::RespCode` doc comment in
deserializer.rs. -/
def RespCode.from_str (s : List Nat) : RespCode :=
  match parseU64 s with
  | some 0 => .Okay
  | some 1 => .NotFound
  | some n => .Unrecognized n
  | none => .OtherError s

/-- The decoder state of the incremental UTF-8 decoder that models
`String::from_utf8_lossy`: `acc` holds the scalar bits gathered so far,
`need` the number of continuation bytes still expected, and `lo`/`hi`
the inclusive admissible range of the next continuation byte. -/
structure Utf8State where
  acc : Nat
  need : Nat
  lo : Nat
  hi : Nat
deriving DecidableEq

/-- Classify a byte in the initial decoder state: ASCII emits itself,
a valid lead byte opens a multibyte sequence (with the constrained
ranges of the second byte for E0, ED, F0 and F4), and an invalid lead
emits one U+FFFD replacement. -/
def utf8Lead (b : Nat) : Utf8State × List Nat :=
  if b < 128 then (⟨0, 0, 0, 0⟩, [b])
  else if 194 ≤ b ∧ b ≤ 223 then (⟨b - 192, 1, 128, 191⟩, [])
  else if 224 ≤ b ∧ b ≤ 239 then
    (⟨b - 224, 2, if b = 224 then 160 else 128, if b = 237 then 159 else 191⟩, [])
  else if 240 ≤ b ∧ b ≤ 244 then
    (⟨b - 240, 3, if b = 240 then 144 else 128, if b = 244 then 143 else 191⟩, [])
  else (⟨0, 0, 0, 0⟩, [65533])

/-- One byte of UTF-8 decoding with replacement: on an invalid
continuation byte the maximal valid subpart gathered so far is replaced
by one U+FFFD and the current byte is reprocessed as a lead byte. -/
def utf8Step (s : Utf8State) (b : Nat) : Utf8State × List Nat :=
  if s.need = 0 then utf8Lead b
  else if s.lo ≤ b ∧ b ≤ s.hi then
    let acc := s.acc * 64 + (b - 128)
    if s.need = 1 then (⟨0, 0, 0, 0⟩, [acc])
    else (⟨acc, s.need - 1, 128, 191⟩, [])
  else
    let (s2, out) := utf8Lead b
    (s2, 65533 :: out)

/-- Run the UTF-8 decoder over a byte list; a dangling incomplete
sequence at the end of input is replaced by one U+FFFD. -/
def utf8Run : Utf8State → List Nat → List Nat
  | s, [] => if s.need = 0 then [] else [65533]
  | s, b :: rest =>
    let (s2, out) := utf8Step s b
    out ++ utf8Run s2 rest

/-- Model of `String::from_utf8_lossy` (deserializer.rs:196): decode a
byte list to the list of Unicode scalar values, replacing each maximal
invalid subpart by U+FFFD. -/
def utf8Lossy (l : List Nat) : List Nat := utf8Run ⟨0, 0, 0, 0⟩ l

/-- `DataType` of deserializer.rs:37-44: a decoded element. -/
inductive DataType
  | Str (text : List Nat)
  | RespCode (code : RespCode)
  | UnsignedInt (value : Nat)
deriving DecidableEq

/-- `DataGroup` of deserializer.rs:26. -/
abbrev DataGroup := List DataType

/-- `ClientResult` of deserializer.rs:58-73. -/
inductive ClientResult
  | InvalidResponse
  | PipelinedResponse (groups : List DataGroup) (consumed : Nat)
  | SimpleResponse (group : DataGroup) (consumed : Nat)
  | ResponseItem (item : DataType) (consumed : Nat)
  | Empty
  | Incomplete
  | ParseError
deriving DecidableEq

/-- Outcome of running `parse`: either a returned `ClientResult` or a
process abort (Rust panic).  The `Empty` variant of `ClientResult` is
never produced by `parse` itself (it is produced by the connection code
on a zero-byte read). -/
inductive ParseResult
  | ok (r : ClientResult)
  | panicked
deriving DecidableEq

/-- Outcome of one of the two parsing loops: the loop either runs to
its exit condition (`done`, carrying the new cursor and accumulator) or
the whole of `parse` returns early (`ret`). -/
inductive LoopOut (α : Type)
  | done (val : α)
  | ret (r : ParseResult)
deriving DecidableEq

/-- The digit-scan loop shared by deserializer.rs:256-273 (inside
`read_line_and_return_next_line`) and deserializer.rs:172-187 (element
size): starting from the suffix `buf.drop pos` of the buffer, consume
decimal digits until a line feed or the end of the buffer, accumulating
the size in wrapping `usize` arithmetic.  Returns the exit position
(the index of the line feed, or the buffer length) and the accumulated
size; `none` models the non-digit early return (`return None` at
deserializer.rs:263/268, `return ClientResult::InvalidResponse` at
deserializer.rs:178/183).  The first argument is always the suffix of
the buffer starting at `pos`, so the recursion is structural. -/
def lineSizeLoop : List Nat → Nat → Nat → Option (Nat × Nat)
  | [], pos, size => some (pos, size)
  | b :: rest, pos, size =>
    if b = 10 then some (pos, size)
    else if 48 ≤ b ∧ b ≤ 57 then lineSizeLoop rest (pos + 1) (digitStep size b)
    else none

/-- `read_line_and_return_next_line` of deserializer.rs:254-285: scan a
decimal size, skip the line feed (unconditionally, even when the scan
stopped at the end of the buffer), and return the next `size` bytes
together with the cursor advanced past them; `none` when a non-digit
appears or fewer than `size` bytes remain (`buf.get` range out of
bounds). -/
def read_line_and_return_next_line (buf : List Nat) (pos : Nat) : Option (Nat × List Nat) :=
  match lineSizeLoop (buf.drop pos) pos 0 with
  | none => none
  | some (p, size) =>
    let p1 := p + 1
    if p1 + size ≤ buf.length then some (p1 + size, (buf.drop p1).take size)
    else none

/-- The digit loops over a whole already-extracted line: the metaline
digits after `*` (deserializer.rs:105-118) and the array-size digits
after `&` (deserializer.rs:142-159).  Every remaining byte must be a
decimal digit; `none` models `return ClientResult::InvalidResponse`. -/
def parseAllDigits : List Nat → Nat → Option Nat
  | [], acc => some acc
  | b :: rest, acc =>
    if 48 ≤ b ∧ b ≤ 57 then parseAllDigits rest (digitStep acc b)
    else none

/-- The element loop of deserializer.rs:163-211: while the cursor is in
bounds and fewer than `current_array_size` elements have been decoded,
read one tag byte, a decimal size line, the payload bytes and the
(unchecked) trailing line feed, and push the decoded element.  Each
iteration pushes exactly one element, so the counter argument (the
number of elements still allowed, initially the declared array size)
makes the recursion structural; the cursor-in-bounds half of the Rust
guard is the `buf.drop pos` match.  A tag byte outside `+`/`!`/`:` is
the `unimplemented!` abort of deserializer.rs:169. -/
def elemLoop (buf : List Nat) : Nat → Nat → DataGroup → LoopOut (Nat × DataGroup)
  | 0, pos, group => .done (pos, group)
  | k + 1, pos, group =>
    match buf.drop pos with
    | [] => .done (pos, group)
    | t :: _ =>
      if t = 43 ∨ t = 33 ∨ t = 58 then
        match lineSizeLoop (buf.drop (pos + 1)) (pos + 1) 0 with
        | none => .ret (.ok .InvalidResponse)
        | some (p, esize) =>
          let p1 := p + 1
          if p1 + esize ≤ buf.length then
            let value := utf8Lossy ((buf.drop p1).take esize)
            let d? : Option DataType :=
              if t = 43 then some (.Str value)
              else if t = 33 then some (.RespCode (RespCode.from_str value))
              else (parseU64 value).map .UnsignedInt
            match d? with
            | some d => elemLoop buf k (p1 + esize + 1) (group ++ [d])
            | none => .ret (.ok .ParseError)
          else .ret (.ok .Incomplete)
      else .ret .panicked

/-- The datagroup loop of deserializer.rs:124-225: while the cursor is
in bounds and at most `action_size` groups have been collected, expect
a `#` envelope, read its line, require a leading `&`, parse the array
size and run the element loop.  Each completed iteration pushes exactly
one group, so the counter argument (initially `action_size + 1`,
because the Rust guard is `items.len() <= action_size`) makes the
recursion structural.  An empty envelope line is the out-of-bounds
indexing `next_line[0]` of deserializer.rs:138. -/
def groupLoop (buf : List Nat) : Nat → Nat → List DataGroup → LoopOut (Nat × List DataGroup)
  | 0, pos, items => .done (pos, items)
  | k + 1, pos, items =>
    match buf.drop pos with
    | [] => .done (pos, items)
    | b :: _ =>
      if b = 35 then
        match read_line_and_return_next_line buf (pos + 1) with
        | none => .ret (.ok .Incomplete)
        | some (p, line) =>
          match line with
          | [] => .ret .panicked
          | c :: rest =>
            if c = 38 then
              match parseAllDigits rest 0 with
              | none => .ret (.ok .InvalidResponse)
              | some asize =>
                match elemLoop buf asize (p + 1) [] with
                | .ret r => .ret r
                | .done (p2, g) => groupLoop buf k p2 (items ++ [g])
            else .ret (.ok .InvalidResponse)
      else .ret (.ok .InvalidResponse)

/-- `parse` of deserializer.rs:76-248: reject buffers shorter than six
bytes as `Incomplete`, read the `#`-framed metaline, require a leading
`*`, parse the declared datagroup count, run the group loop, and
classify the result: at the exact end of the buffer with the declared
number of groups, one group of one element is `ResponseItem`, one group
is `SimpleResponse`, several groups are `PipelinedResponse`; with too
few or too many groups the result is `Incomplete`, and with bytes left
over it is `InvalidResponse`.  An empty metaline is the out-of-bounds
indexing `next_line[0]` of deserializer.rs:104. -/
def parse (buf : List Nat) : ParseResult :=
  if buf.length < 6 then .ok .Incomplete
  else if buf.head? ≠ some 35 then .ok .InvalidResponse
  else match read_line_and_return_next_line buf 1 with
    | none => .ok .Incomplete
    | some (p, line) =>
      match line with
      | [] => .panicked
      | c :: rest =>
        if c ≠ 42 then .ok .InvalidResponse
        else match parseAllDigits rest 0 with
        | none => .ok .InvalidResponse
        | some asize =>
          match groupLoop buf (asize + 1) (p + 1) [] with
          | .ret r => r
          | .done (pos, items) =>
            if buf.length ≤ pos then
              if items.length = asize then
                match items with
                | [[d]] => .ok (.ResponseItem d pos)
                | [g] => .ok (.SimpleResponse g pos)
                | _ => .ok (.PipelinedResponse items pos)
              else .ok .Incomplete
            else .ok .InvalidResponse

/-- The byte count carried by the three successful outcome shapes of
`ClientResult`, `none` for every other outcome. -/
def consumedOf : ClientResult → Option Nat
  | .PipelinedResponse _ c => some c
  | .SimpleResponse _ c => some c
  | .ResponseItem _ c => some c
  | _ => none

/-- Decimal digit bytes of `n`, most significant first, accumulated by
repeated division; the fuel argument (any bound on the number of
digits, here instantiated with `n` itself) makes the recursion
structural so that the kernel can evaluate it. -/
def natDigitsAux : Nat → Nat → List Nat
  | 0, _ => []
  | fuel + 1, n => if n = 0 then [] else natDigitsAux fuel (n / 10) ++ [n % 10 + 48]

/-- The canonical ASCII decimal representation of a natural number, as
a list of digit bytes (most significant first), as produced by the
`usize` formatting of the wire protocol. -/
def natDigits (n : Nat) : List Nat :=
  if n = 0 then [48] else natDigitsAux n n

/-- Folding the wrapping decimal accumulation of the parser over a list
of digit bytes. -/
def digitsFold (acc : Nat) (ds : List Nat) : Nat := ds.foldl digitStep acc

/-- A whole response buffer declaring one datagroup of one element with
the given tag byte and raw payload:
`#2 LF * 1 LF # 2 LF & 1 LF tag <decimal length> LF payload LF`. -/
def mkSingle (t : Nat) (payload : List Nat) : List Nat :=
  [35, 50, 10, 42, 49, 10, 35, 50, 10, 38, 49, 10] ++
    t :: natDigits payload.length ++ 10 :: payload ++ [10]

/-- A whole response buffer declaring zero datagroups, with the
metaline `*0...0` (the `&zs` run of ASCII zero bytes) and nothing after
the metaframe: `# <decimal length> LF * zs LF`. -/
def emptyBatch (zs : List Nat) : List Nat :=
  35 :: natDigits (zs.length + 1) ++ 10 :: 42 :: zs ++ [10]

/-- The element produced for a decoded payload string by each of the
three recognized tags, mirroring the `datatype` dispatch of
deserializer.rs:198-210; `none` is the `ParseError` early return of the
unsigned-integer arm. -/
def singleDecode (t : Nat) (s : List Nat) : Option DataType :=
  if t = 43 then some (.Str s)
  else if t = 33 then some (.RespCode (RespCode.from_str s))
  else (parseU64 s).map .UnsignedInt

/- Fidelity checks against the two unit tests of deserializer.rs
(test_deserializer_responseitem, test_deserializer_simple_response). -/

example :
    parse [35, 50, 10, 42, 49, 10, 35, 50, 10, 38, 49, 10,
           43, 52, 10, 72, 69, 89, 33, 10] =
      .ok (.ResponseItem (.Str [72, 69, 89, 33]) 20) := by decide

example :
    parse [35, 50, 10, 42, 49, 10, 35, 50, 10, 38, 49, 10,
           33, 49, 10, 48, 10] =
      .ok (.ResponseItem (.RespCode .Okay) 17) := by decide

example :
    parse [35, 50, 10, 42, 49, 10, 35, 50, 10, 38, 53, 10,
           33, 49, 10, 49, 10,
           33, 49, 10, 48, 10,
           43, 53, 10, 115, 97, 121, 97, 110, 10,
           43, 50, 10, 105, 115, 10,
           43, 52, 10, 98, 117, 115, 121, 10] =
      .ok (.SimpleResponse
        [.RespCode .NotFound, .RespCode .Okay,
         .Str [115, 97, 121, 97, 110], .Str [105, 115],
         .Str [98, 117, 115, 121]] 45) := by decide

/-- Claim C9: parsing the exact 20-byte buffer
`#2 LF * 1 LF # 2 LF & 1 LF + 4 LF H E Y ! LF` yields `ResponseItem`
carrying the string element HEY! with a consumed count equal to the
buffer length. -/
theorem c9_hey_single_item :
    parse [35, 50, 10, 42, 49, 10, 35, 50, 10, 38, 49, 10,
           43, 52, 10, 72, 69, 89, 33, 10] =
      .ok (.ResponseItem (.Str [72, 69, 89, 33]) 20) ∧
    ([35, 50, 10, 42, 49, 10, 35, 50, 10, 38, 49, 10,
      43, 52, 10, 72, 69, 89, 33, 10] : List Nat).length = 20 := by
  decide

/-- Claim C1 (code bug): on the buffer
`#2 LF * 1 LF # 2 LF & 1 LF - 1 LF a LF`, whose element tag byte `-`
(45) is none of the recognized tags, the code reaches the
`unimplemented!` arm of deserializer.rs:169 and aborts the process
instead of returning `InvalidResponse` as the claim states. -/
theorem c1_unknown_tag_panics :
    parse [35, 50, 10, 42, 49, 10, 35, 50, 10, 38, 49, 10,
           45, 49, 10, 97, 10] = .panicked := by
  decide

/-- Claim C2 (code bug): on the 6-byte buffer `# 0 LF LF X X` the
metaframe line has declared length zero, so `next_line` is empty and
the indexing `next_line[0]` at deserializer.rs:104 aborts the process:
`parse` is not total. -/
theorem c2_empty_line_panics :
    parse [35, 48, 10, 10, 88, 88] = .panicked := by
  decide

/-- Claim C3 (code bug): the 22-byte buffer
`#2 LF * 1 LF # 2 LF & 2 LF + 1 LF a LF + 1 LF b LF` is well formed
(it parses to a `SimpleResponse` of two string elements), yet its
strict 17-byte prefix, which truncates the declared two-element group
after its first element, parses to a successful `ResponseItem` instead
of `Incomplete`: the element loop stops at the end of the buffer
without checking the declared element count. -/
theorem c3_truncated_success :
    parse [35, 50, 10, 42, 49, 10, 35, 50, 10, 38, 50, 10,
           43, 49, 10, 97, 10, 43, 49, 10, 98, 10] =
      .ok (.SimpleResponse [.Str [97], .Str [98]] 22) ∧
    parse (([35, 50, 10, 42, 49, 10, 35, 50, 10, 38, 50, 10,
             43, 49, 10, 97, 10, 43, 49, 10, 98, 10] : List Nat).take 17) =
      .ok (.ResponseItem (.Str [97]) 17) ∧
    (17 : Nat) < 22 := by
  decide

/-- Claim C5 (code bug): appending the six bytes `# 2 LF & 0 LF` (a
complete extra datagroup) to the well-formed single-group response of
claim C9 yields a buffer on which `parse` returns `Incomplete`, not
`InvalidResponse`: the loop bound `items.len() <= action_size` of
deserializer.rs:124 collects the surplus group and the final count
mismatch falls into the missing-data branch of deserializer.rs:242. -/
theorem c5_trailing_group_incomplete :
    parse [35, 50, 10, 42, 49, 10, 35, 50, 10, 38, 49, 10,
           43, 52, 10, 72, 69, 89, 33, 10] =
      .ok (.ResponseItem (.Str [72, 69, 89, 33]) 20) ∧
    parse ([35, 50, 10, 42, 49, 10, 35, 50, 10, 38, 49, 10,
            43, 52, 10, 72, 69, 89, 33, 10] ++ [35, 50, 10, 38, 48, 10]) =
      .ok .Incomplete := by
  decide

/-- Claim C4 (counterexample): on the 6-byte buffer `# 3 LF * 0 0`
`parse` succeeds with `PipelinedResponse` and a consumed count of 7,
strictly larger than the buffer length 6: the line feed after the
metaline is skipped without a bounds check, so the claimed equality
`consumed = buffer length` fails. -/
theorem c4_counterexample :
    parse [35, 51, 10, 42, 48, 48] = .ok (.PipelinedResponse [] 7) ∧
    ([35, 51, 10, 42, 48, 48] : List Nat).length = 6 ∧ ¬ (7 : Nat) = 6 := by
  decide

/-- Claim C6 (counterexample): on the buffer
`#2 LF * 1 LF # 2 LF & 1 LF ! 3 LF a b c LF`, whose status-code
payload `abc` is not a decimal integer, `parse` does not return
`ParseError`: the conversion at deserializer.rs:201 is total and the
payload is carried in the catch-all other-error status variant. -/
theorem c6_counterexample :
    parse [35, 50, 10, 42, 49, 10, 35, 50, 10, 38, 49, 10,
           33, 51, 10, 97, 98, 99, 10] =
      .ok (.ResponseItem (.RespCode (.OtherError [97, 98, 99])) 19) ∧
    ¬ parse [35, 50, 10, 42, 49, 10, 35, 50, 10, 38, 49, 10,
             33, 51, 10, 97, 98, 99, 10] = .ok .ParseError := by
  decide

/- Helper lemmas about list positioning and decimal digit runs. -/

theorem dropAppend {α : Type} (l₁ l₂ : List α) (n : Nat) (h : l₁.length = n) :
    (l₁ ++ l₂).drop n = l₂ := by
  subst h; exact List.drop_left l₁ l₂

theorem takeAppend {α : Type} (l₁ l₂ : List α) (n : Nat) (h : l₁.length = n) :
    (l₁ ++ l₂).take n = l₁ := by
  subst h; exact List.take_left l₁ l₂

theorem digitsFold_cons (acc d : Nat) (ds : List Nat) :
    digitsFold acc (d :: ds) = digitsFold (digitStep acc d) ds := rfl

/-- The shared digit-scan loop, run against a run of decimal digit
bytes followed by a line feed, stops at the line feed with the folded
size. -/
theorem lineSizeLoop_chunk (ds rest : List Nat) (pos acc : Nat)
    (h : ∀ d ∈ ds, 48 ≤ d ∧ d ≤ 57) :
    lineSizeLoop (ds ++ 10 :: rest) pos acc =
      some (pos + ds.length, digitsFold acc ds) := by
  induction ds generalizing pos acc with
  | nil => simp [lineSizeLoop, digitsFold]
  | cons d ds ih =>
    have hd := h d (List.mem_cons_self d ds)
    have hds : ∀ x ∈ ds, 48 ≤ x ∧ x ≤ 57 := fun x hx => h x (List.mem_cons_of_mem d hx)
    have hne : ¬ d = 10 := by omega
    rw [List.cons_append, lineSizeLoop.eq_def]
    simp only [if_neg hne, if_pos hd, ih _ _ hds, digitsFold_cons]
    have harith : pos + 1 + ds.length = pos + (ds.length + 1) := by omega
    rw [harith]
    rfl

/-- The whole-line digit loop, run against a line consisting only of
decimal digit bytes, returns the folded size. -/
theorem parseAllDigits_digits (ds : List Nat) (acc : Nat)
    (h : ∀ d ∈ ds, 48 ≤ d ∧ d ≤ 57) :
    parseAllDigits ds acc = some (digitsFold acc ds) := by
  induction ds generalizing acc with
  | nil => rfl
  | cons d ds ih =>
    have hd := h d (List.mem_cons_self d ds)
    have hds : ∀ x ∈ ds, 48 ≤ x ∧ x ≤ 57 := fun x hx => h x (List.mem_cons_of_mem d hx)
    rw [parseAllDigits.eq_def]
    simp only [if_pos hd, ih _ hds, digitsFold_cons]

theorem natDigitsAux_all_digits (fuel : Nat) :
    ∀ (n : Nat), ∀ d ∈ natDigitsAux fuel n, 48 ≤ d ∧ d ≤ 57 := by
  induction fuel with
  | zero => intro n d hd; simp [natDigitsAux] at hd
  | succ fuel ih =>
    intro n d hd
    simp only [natDigitsAux] at hd
    split at hd
    · simp at hd
    · rcases List.mem_append.mp hd with hmem | hmem
      · exact ih _ d hmem
      · simp only [List.mem_singleton] at hmem
        subst hmem
        have := Nat.mod_lt n (show 0 < 10 by norm_num)
        omega

theorem natDigits_all_digits (n : Nat) : ∀ d ∈ natDigits n, 48 ≤ d ∧ d ≤ 57 := by
  intro d hd
  unfold natDigits at hd
  split at hd
  · simp only [List.mem_singleton] at hd
    omega
  · exact natDigitsAux_all_digits n n d hd

theorem natDigits_ne_nil (n : Nat) : natDigits n ≠ [] := by
  unfold natDigits
  split
  · simp
  · rename_i hn
    rcases n with _ | m
    · exact absurd rfl hn
    · rw [natDigitsAux.eq_def]
      simp [hn]

theorem digitsFold_append_one (acc d : Nat) (ds : List Nat) :
    digitsFold acc (ds ++ [d]) = digitStep (digitsFold acc ds) d := by
  unfold digitsFold
  rw [List.foldl_append]
  rfl

theorem digitsFold_natDigitsAux (fuel : Nat) :
    ∀ (n : Nat), n ≤ fuel → digitsFold 0 (natDigitsAux fuel n) = n % USIZE := by
  induction fuel with
  | zero =>
    intro n hn
    have : n = 0 := by omega
    subst this
    rfl
  | succ fuel ih =>
    intro n hn
    simp only [natDigitsAux]
    split
    · rename_i h0
      subst h0
      rfl
    · rename_i h0
      have hdiv : n / 10 ≤ fuel := by omega
      rw [digitsFold_append_one, ih _ hdiv]
      simp only [digitStep, USIZE]
      omega

theorem digitsFold_natDigits (n : Nat) : digitsFold 0 (natDigits n) = n % USIZE := by
  unfold natDigits
  split
  · subst n
    simp [digitsFold, digitStep]
  · exact digitsFold_natDigitsAux n n (Nat.le_refl n)

theorem digitsFold_zeros (zs : List Nat) (h : ∀ b ∈ zs, b = 48) :
    digitsFold 0 zs = 0 := by
  induction zs with
  | nil => rfl
  | cons b zs ih =>
    have hb := h b (List.mem_cons_self b zs)
    have hzs : ∀ x ∈ zs, x = 48 := fun x hx => h x (List.mem_cons_of_mem b hx)
    rw [digitsFold_cons, hb]
    have : digitStep 0 48 = 0 := by simp [digitStep]
    rw [this, ih hzs]

/-- Every early return of the element loop is one of the four
non-success outcomes: `InvalidResponse`, `Incomplete`, `ParseError` or
a panic; a successful outcome shape is never produced inside the
loop. -/
theorem elemLoop_ret_cases (buf : List Nat) (k : Nat) :
    ∀ (pos : Nat) (g : DataGroup) (r : ParseResult),
      elemLoop buf k pos g = .ret r →
      r = .ok .InvalidResponse ∨ r = .ok .Incomplete ∨
        r = .ok .ParseError ∨ r = .panicked := by
  induction k with
  | zero => intro pos g r h; simp [elemLoop] at h
  | succ k ih =>
    intro pos g r h
    simp only [elemLoop] at h
    repeat' split at h
    all_goals solve
      | exact ih _ _ _ h
      | (injection h with h; subst h; simp)
      | simp at h

/-- Every early return of the datagroup loop is one of the four
non-success outcomes. -/
theorem groupLoop_ret_cases (buf : List Nat) (k : Nat) :
    ∀ (pos : Nat) (items : List DataGroup) (r : ParseResult),
      groupLoop buf k pos items = .ret r →
      r = .ok .InvalidResponse ∨ r = .ok .Incomplete ∨
        r = .ok .ParseError ∨ r = .panicked := by
  induction k with
  | zero => intro pos items r h; simp [groupLoop] at h
  | succ k ih =>
    intro pos items r h
    simp only [groupLoop] at h
    repeat' split at h
    all_goals solve
      | exact ih _ _ _ h
      | (injection h with h; subst h; simp)
      | (injection h with h; subst h;
         exact elemLoop_ret_cases buf _ _ _ _ (by assumption))
      | simp at h

/-- Claim C4 (amended): whenever `parse` returns an outcome carrying a
consumed byte count (`ResponseItem`, `SimpleResponse` or
`PipelinedResponse`), that count is at least the length of the input
buffer; it can strictly exceed it (see `c4_counterexample`), because
the parser skips trailing line feeds without a bounds check, so exact
equality with the buffer length does not hold in general. -/
theorem c4_consumed_ge_length (buf : List Nat) (r : ClientResult) (c : Nat)
    (h1 : parse buf = .ok r) (h2 : consumedOf r = some c) :
    buf.length ≤ c := by
  unfold parse at h1
  repeat' split at h1
  all_goals solve
    | (injection h1 with h1; subst h1; simp [consumedOf] at h2; omega)
    | (injection h1 with h1; subst h1; simp [consumedOf] at h2)
    | (rcases groupLoop_ret_cases _ _ _ _ _ (by assumption) with h3 | h3 | h3 | h3 <;>
        subst h3 <;>
        first
          | (injection h1 with h1; subst h1; simp [consumedOf] at h2)
          | simp at h1)
    | simp at h1

/-- Witness for `c4_consumed_ge_length` at the concrete overshooting
input of `c4_counterexample`. -/
theorem c4_consumed_ge_length_witness :
    parse [35, 51, 10, 42, 48, 48] = .ok (.PipelinedResponse [] 7) ∧
    consumedOf (.PipelinedResponse [] 7) = some 7 ∧
    ([35, 51, 10, 42, 48, 48] : List Nat).length ≤ 7 :=
  ⟨by decide, by decide,
    c4_consumed_ge_length [35, 51, 10, 42, 48, 48] (.PipelinedResponse [] 7) 7
      (by decide) (by decide)⟩

/-- Evaluation of `read_line_and_return_next_line` on a buffer whose
suffix at `pos` is a digit run, a line feed, the declared line and some
rest: it returns the line and the cursor advanced past it. -/
theorem read_line_chunk (buf pre ds line rest : List Nat) (pos : Nat)
    (hbuf : buf = pre ++ (ds ++ (10 :: (line ++ rest))))
    (hpre : pre.length = pos)
    (hds : ∀ d ∈ ds, 48 ≤ d ∧ d ≤ 57)
    (hline : line.length = digitsFold 0 ds) :
    read_line_and_return_next_line buf pos =
      some (pos + ds.length + 1 + line.length, line) := by
  have hdrop : buf.drop pos = ds ++ (10 :: (line ++ rest)) := by
    rw [hbuf, dropAppend pre _ pos hpre]
  have hscan : lineSizeLoop (buf.drop pos) pos 0 =
      some (pos + ds.length, digitsFold 0 ds) := by
    rw [hdrop]
    exact lineSizeLoop_chunk ds (line ++ rest) pos 0 hds
  have hlen : buf.length = pos + ds.length + 1 + line.length + rest.length := by
    rw [hbuf]
    simp [List.length_append]
    omega
  have hbuf2 : buf = (pre ++ (ds ++ [10])) ++ (line ++ rest) := by
    rw [hbuf]
    simp
  have hdrop2 : buf.drop (pos + ds.length + 1) = line ++ rest := by
    rw [hbuf2, dropAppend _ _ _ (by simp [hpre]; omega)]
  unfold read_line_and_return_next_line
  rw [hscan]
  have hbound : pos + ds.length + 1 + digitsFold 0 ds ≤ buf.length := by
    rw [← hline]
    omega
  simp only [if_pos (show pos + ds.length + 1 + digitsFold 0 ds ≤ buf.length from hbound)]
  rw [hdrop2, ← hline, takeAppend line rest line.length rfl]

/-- Evaluation of one turn of the element loop on a buffer whose suffix
at `pos` is exactly one element: a recognized tag byte, the decimal
digits of the payload length, a line feed, the payload and the final
line feed.  The loop consumes the whole element and either finishes
with the decoded element at the end of the buffer or early-returns
`ParseError` (unsigned-integer tag with a non-numeric payload). -/
theorem elemLoop_single (buf pre payload : List Nat) (t pos : Nat)
    (hbuf : buf = pre ++ (t :: (natDigits payload.length ++ (10 :: (payload ++ [10])))))
    (hpre : pre.length = pos)
    (htag : t = 43 ∨ t = 33 ∨ t = 58)
    (hL : payload.length < USIZE) :
    elemLoop buf 1 pos [] =
      match singleDecode t (utf8Lossy payload) with
      | some d => .done (buf.length, [d])
      | none => .ret (.ok .ParseError) := by
  have hdrop : buf.drop pos = t :: (natDigits payload.length ++ (10 :: (payload ++ [10]))) := by
    rw [hbuf, dropAppend pre _ pos hpre]
  have hbuf2 : buf = (pre ++ [t]) ++ (natDigits payload.length ++ (10 :: (payload ++ [10]))) := by
    rw [hbuf]; simp
  have hdrop1 : buf.drop (pos + 1) = natDigits payload.length ++ (10 :: (payload ++ [10])) := by
    rw [hbuf2, dropAppend _ _ _ (by simp [hpre])]
  have hscan : lineSizeLoop (buf.drop (pos + 1)) (pos + 1) 0 =
      some (pos + 1 + (natDigits payload.length).length, payload.length) := by
    rw [hdrop1, lineSizeLoop_chunk _ _ _ _ (natDigits_all_digits payload.length),
      digitsFold_natDigits, Nat.mod_eq_of_lt hL]
  have hlen : buf.length =
      pos + 1 + (natDigits payload.length).length + 1 + payload.length + 1 := by
    rw [hbuf]
    simp [List.length_append]
    omega
  have hbuf3 : buf = (pre ++ (t :: (natDigits payload.length ++ [10]))) ++ (payload ++ [10]) := by
    rw [hbuf]; simp
  have hdrop2 : buf.drop (pos + 1 + (natDigits payload.length).length + 1) = payload ++ [10] := by
    rw [hbuf3, dropAppend _ _ _ (by simp [hpre]; omega)]
  simp only [elemLoop]
  rw [hdrop]
  simp only []
  rw [if_pos htag, hscan]
  simp only []
  have hbound : pos + 1 + (natDigits payload.length).length + 1 + payload.length ≤ buf.length := by
    omega
  simp only [if_pos hbound]
  rw [hdrop2, takeAppend payload [10] payload.length rfl]
  have hsd : (if t = 43 then some (DataType.Str (utf8Lossy payload))
      else if t = 33 then some (DataType.RespCode (RespCode.from_str (utf8Lossy payload)))
      else (parseU64 (utf8Lossy payload)).map DataType.UnsignedInt) =
      singleDecode t (utf8Lossy payload) := rfl
  rw [hsd]
  rcases hd : singleDecode t (utf8Lossy payload) with _ | d <;> simp only []
  simp only [List.nil_append]
  rw [hlen]

/-- Evaluation of the datagroup loop on a single-element single-group
response frame: it consumes the group header and the element and stops
at the end of the buffer. -/
theorem groupLoop_mkSingle (t : Nat) (payload : List Nat)
    (htag : t = 43 ∨ t = 33 ∨ t = 58) (hL : payload.length < USIZE) :
    groupLoop (mkSingle t payload) 2 6 [] =
      match singleDecode t (utf8Lossy payload) with
      | some d => LoopOut.done ((mkSingle t payload).length, [[d]])
      | none => LoopOut.ret (.ok .ParseError) := by
  have hb3 : mkSingle t payload =
      [35, 50, 10, 42, 49, 10, 35, 50, 10, 38, 49, 10] ++
        (t :: (natDigits payload.length ++ (10 :: (payload ++ [10])))) := by
    simp [mkSingle]
  have hdrop6 : (mkSingle t payload).drop 6 =
      35 :: ([50, 10, 38, 49, 10] ++
        (t :: (natDigits payload.length ++ (10 :: (payload ++ [10]))))) := by
    rw [hb3]; rfl
  have hb2 : mkSingle t payload =
      [35, 50, 10, 42, 49, 10, 35] ++ ([50] ++ (10 :: ([38, 49] ++
        (10 :: (t :: (natDigits payload.length ++ (10 :: (payload ++ [10]))))))))  := by
    simp [mkSingle]
  have hline2 := read_line_chunk (mkSingle t payload) [35, 50, 10, 42, 49, 10, 35]
    [50] [38, 49] (10 :: (t :: (natDigits payload.length ++ (10 :: (payload ++ [10])))))
    7 hb2 rfl (by decide) (by decide)
  simp only [List.length_cons, List.length_nil, Nat.reduceAdd] at hline2
  have helem := elemLoop_single (mkSingle t payload)
    [35, 50, 10, 42, 49, 10, 35, 50, 10, 38, 49, 10] payload t 12 hb3 rfl htag hL
  have hpd : parseAllDigits [49] 0 = some 1 := by decide
  simp only [groupLoop]
  rw [hdrop6]
  simp only [Nat.reduceAdd, Nat.reduceEqDiff, reduceIte, if_true]
  rw [hline2]
  simp only [Nat.reduceAdd, Nat.reduceEqDiff, reduceIte, if_true]
  rw [hpd]
  simp only [Nat.reduceAdd]
  rw [helem]
  rcases hd : singleDecode t (utf8Lossy payload) with _ | d <;> simp only []
  rw [List.drop_length]
  simp

/-- Full evaluation of `parse` on a single-element single-group
response frame with an arbitrary recognized tag and arbitrary payload
bytes: the declared element is decoded by the tag dispatch (string,
status code or unsigned integer), and the consumed count is the frame
length. -/
theorem parse_mkSingle_eval (t : Nat) (payload : List Nat)
    (htag : t = 43 ∨ t = 33 ∨ t = 58) (hL : payload.length < USIZE) :
    parse (mkSingle t payload) =
      match singleDecode t (utf8Lossy payload) with
      | some d => .ok (.ResponseItem d (mkSingle t payload).length)
      | none => .ok .ParseError := by
  have hlen : (mkSingle t payload).length =
      15 + (natDigits payload.length).length + payload.length := by
    simp [mkSingle, List.length_append]
    omega
  have hlen6 : ¬ (mkSingle t payload).length < 6 := by omega
  have hhead : ¬ (mkSingle t payload).head? ≠ some 35 := by
    simp [mkSingle]
  have hb1 : mkSingle t payload =
      [35] ++ ([50] ++ (10 :: ([42, 49] ++ (10 :: ([35, 50, 10, 38, 49, 10] ++
        (t :: (natDigits payload.length ++ (10 :: (payload ++ [10]))))))))) := by
    simp [mkSingle]
  have hmeta := read_line_chunk (mkSingle t payload) [35] [50] [42, 49]
    (10 :: ([35, 50, 10, 38, 49, 10] ++
      (t :: (natDigits payload.length ++ (10 :: (payload ++ [10]))))))
    1 hb1 rfl (by decide) (by decide)
  simp only [List.length_cons, List.length_nil, Nat.reduceAdd] at hmeta
  have hpd : parseAllDigits [49] 0 = some 1 := by decide
  have hgl := groupLoop_mkSingle t payload htag hL
  unfold parse
  rw [if_neg hlen6, if_neg hhead, hmeta]
  simp only [Nat.reduceAdd, Nat.reduceEqDiff, reduceIte, if_true, ne_eq]
  rw [hpd]
  simp only [Nat.reduceAdd]
  rw [hgl]
  rcases hd : singleDecode t (utf8Lossy payload) with _ | d <;> simp only []
  · simp
  · rw [if_pos (Nat.le_refl _)]
    simp

/-- Claim C8: for every payload byte sequence, a `+`-tagged element
inside a well-formed frame decodes to a `Str` value obtained by lossy
UTF-8 substitution, never failing the decode: the outcome is a
successful `ResponseItem` consuming the whole buffer regardless of the
payload bytes. -/
theorem c8_string_lossy (payload : List Nat) (hL : payload.length < USIZE) :
    parse (mkSingle 43 payload) =
      .ok (.ResponseItem (.Str (utf8Lossy payload)) (mkSingle 43 payload).length) := by
  have h := parse_mkSingle_eval 43 payload (by tauto) hL
  simpa [singleDecode] using h

/-- Witness for `c8_string_lossy` at a payload whose first byte 255 is
not valid UTF-8 and is replaced by U+FFFD. -/
theorem c8_string_lossy_witness :
    parse (mkSingle 43 [255, 72]) = .ok (.ResponseItem (.Str [65533, 72]) 18) := by
  rw [c8_string_lossy [255, 72] (by decide)]
  decide

/-- Claim C6 (amended): a `!`-tagged status-code element never yields
`ParseError`: the payload is decoded by the total status-code
conversion, which maps known integers to their named codes, valid
integers outside the known set to the unrecognized-code variant, and
non-numeric payloads to the catch-all other-error variant carrying the
text. -/
theorem c6_statuscode_total (payload : List Nat) (hL : payload.length < USIZE) :
    parse (mkSingle 33 payload) =
      .ok (.ResponseItem (.RespCode (RespCode.from_str (utf8Lossy payload)))
        (mkSingle 33 payload).length) := by
  have h := parse_mkSingle_eval 33 payload (by tauto) hL
  simpa [singleDecode] using h

/-- Witness for `c6_statuscode_total` at a non-numeric payload (which
decodes to the other-error variant, not `ParseError`) and at the
out-of-set integer payload 5 (which decodes to the unrecognized-code
variant). -/
theorem c6_statuscode_total_witness :
    parse (mkSingle 33 [97, 98, 99]) =
      .ok (.ResponseItem (.RespCode (.OtherError [97, 98, 99])) 19) ∧
    parse (mkSingle 33 [53]) =
      .ok (.ResponseItem (.RespCode (.Unrecognized 5)) 17) :=
  ⟨by rw [c6_statuscode_total [97, 98, 99] (by decide)]; decide,
   by rw [c6_statuscode_total [53] (by decide)]; decide⟩

/-- Claim C7: a `:`-tagged element decodes through the 64-bit unsigned
decimal parse of its payload: on success the element is `UnsignedInt`
of that value with the whole buffer consumed, on failure the outcome is
`ParseError`. -/
theorem c7_unsignedint_parse (payload : List Nat) (hL : payload.length < USIZE) :
    parse (mkSingle 58 payload) =
      match parseU64 (utf8Lossy payload) with
      | some v => .ok (.ResponseItem (.UnsignedInt v) (mkSingle 58 payload).length)
      | none => .ok .ParseError := by
  have h := parse_mkSingle_eval 58 payload (by tauto) hL
  rw [h]
  rcases hp : parseU64 (utf8Lossy payload) with _ | v <;> simp [singleDecode, hp]

/-- Witness for `c7_unsignedint_parse` at a non-numeric payload
(yielding `ParseError`) and at the numeric payload 99. -/
theorem c7_unsignedint_parse_witness :
    parse (mkSingle 58 [97]) = .ok .ParseError ∧
    parse (mkSingle 58 [57, 57]) = .ok (.ResponseItem (.UnsignedInt 99) 18) :=
  ⟨by rw [c7_unsignedint_parse [97] (by decide)]; decide,
   by rw [c7_unsignedint_parse [57, 57] (by decide)]; decide⟩

/-- Claim C10: for every metaline declaring zero datagroups (a `*`
followed by any non-empty run of ASCII zero digits) with nothing after
the metaframe, `parse` succeeds with the explicit empty result: a
`PipelinedResponse` carrying the empty group list, consuming the whole
buffer. -/
theorem c10_empty_batch (zs : List Nat) (hz : ∀ b ∈ zs, b = 48) (hne : zs ≠ [])
    (hW : zs.length + 1 < USIZE) :
    parse (emptyBatch zs) = .ok (.PipelinedResponse [] (emptyBatch zs).length) := by
  have hn1 : 1 ≤ (natDigits (zs.length + 1)).length :=
    List.length_pos.mpr (natDigits_ne_nil (zs.length + 1))
  have hk1 : 1 ≤ zs.length := List.length_pos.mpr hne
  have hlen : (emptyBatch zs).length =
      1 + (natDigits (zs.length + 1)).length + 1 + 1 + zs.length + 1 := by
    simp [emptyBatch, List.length_append]
    omega
  have hlen6 : ¬ (emptyBatch zs).length < 6 := by omega
  have hhead : ¬ (emptyBatch zs).head? ≠ some 35 := by
    simp [emptyBatch]
  have hb1 : emptyBatch zs =
      [35] ++ (natDigits (zs.length + 1) ++ (10 :: ((42 :: zs) ++ [10]))) := by
    simp [emptyBatch]
  have hzd : ∀ b ∈ zs, 48 ≤ b ∧ b ≤ 57 := by
    intro b hb
    have := hz b hb
    omega
  have hmeta := read_line_chunk (emptyBatch zs) [35] (natDigits (zs.length + 1))
    (42 :: zs) [10] 1 hb1 rfl (natDigits_all_digits (zs.length + 1))
    (by
      simp only [List.length_cons]
      rw [digitsFold_natDigits, Nat.mod_eq_of_lt hW])
  have hpd : parseAllDigits zs 0 = some 0 := by
    rw [parseAllDigits_digits zs 0 hzd, digitsFold_zeros zs hz]
  unfold parse
  rw [if_neg hlen6, if_neg hhead, hmeta]
  simp only []
  rw [if_neg (by norm_num : ¬ (42 : Nat) ≠ 42)]
  rw [hpd]
  simp only [Nat.reduceAdd]
  have hpos : 1 + (natDigits (zs.length + 1)).length + 1 + (42 :: zs).length + 1 =
      (emptyBatch zs).length := by
    simp only [List.length_cons]
    omega
  rw [hpos]
  simp only [groupLoop]
  rw [List.drop_length]
  simp only []
  rw [if_pos (Nat.le_refl _)]
  simp

/-- Witness for `c10_empty_batch` at the shortest zero-datagroup
buffer `# 2 LF * 0 LF`. -/
theorem c10_empty_batch_witness :
    parse [35, 50, 10, 42, 48, 10] = .ok (.PipelinedResponse [] 6) := by
  have h := c10_empty_batch [48] (by decide) (by decide) (by decide)
  simpa using h
